import Mathlib

/-!
Verification of the HDHomeRun radio-station plugin (hdhomerun_plugin.py).

The Python module is shallowly embedded: Python dicts become association
lists over `String` keys (`Dict`), the plugin object's mutable attributes
become a `PState` record threaded through the operations, and the
network / OS environment (pipe creation, process launch, pipe reads,
process liveness) is passed in explicitly as environment records.
Pure helpers (`is_likely_radio`, tag derivation, the discovery merge)
are translated directly.
-/

namespace HDHR

/-! ## Python dicts as association lists

A Python `dict` maps each key to at most one value.  We embed dicts over
string keys as association lists; `dlookup` finds the first binding,
`dset` models `d[k] = v` (replace in place, else append — Python dicts
keep insertion order), `derase` models `del d[k]` (on a real dict the
key occurs at most once, so removing every binding for the key is the
same operation), and `dupdate` models `d.update(l)`. -/

abbrev Dict (α : Type) : Type := List (String × α)

def dlookup {α : Type} : Dict α → String → Option α
  | [], _ => none
  | (a, b) :: t, k => if a = k then some b else dlookup t k

def dset {α : Type} : Dict α → String → α → Dict α
  | [], k, v => [(k, v)]
  | (a, b) :: t, k, v => if a = k then (k, v) :: t else (a, b) :: dset t k v

def derase {α : Type} : Dict α → String → Dict α
  | [], _ => []
  | (a, b) :: t, k => if a = k then derase t k else (a, b) :: derase t k

def dupdate {α : Type} (d l : Dict α) : Dict α :=
  l.foldl (fun acc p => dset acc p.1 p.2) d

/-- The keys of a dict are pairwise distinct (true of every Python dict). -/
abbrev keysNodup {α : Type} (d : Dict α) : Prop := (d.map Prod.fst).Nodup

/-- First-of-two option choice, written out so merge results are explicit. -/
def oor {α : Type} (x y : Option α) : Option α :=
  match x with
  | some v => some v
  | none => y

/-! ## Discovery orchestrator (`discover_all_methods`)

The three strategies are network effects; the orchestrator is embedded as
a function of their result maps.  The returned `Bool` records whether the
subnet sweep was executed. -/

def discover_all_methods (mdns broadcast subnet : Dict String) :
    Dict String × Bool :=
  let all := dupdate (dupdate [] mdns) broadcast
  if all.isEmpty then (dupdate all subnet, true) else (all, false)

/-! ## Python `float()` string parsing, restricted to what `is_likely_radio` feeds it

`is_likely_radio` calls `float(guide_number.split('-')[0])`.  We embed the
CPython string-to-float grammar: optional surrounding whitespace, optional
sign, then either `inf`/`infinity`/`nan` (case-insensitive) or a decimal
number `digits [. digits] [e sign digits]` where a digit group may contain
single underscores strictly between digits.  A finite value is kept exact
as `num / 10 ^ exp10` (an integer mantissa and a power-of-ten denominator),
so the `88.0 <= num <= 108.0` comparison can be evaluated over `Int`. -/

inductive PyVal : Type where
  | finite (num : Int) (exp10 : Nat)
  | infinite (pos : Bool)
  | nan
deriving DecidableEq, Repr

def isPyWs (c : Char) : Bool :=
  c = ' ' || c = '\t' || c = '\n' || c = '\r' || c = '\x0b' || c = '\x0c'

def allWs (l : List Char) : Bool := l.all isPyWs

/-- Consume a digit group: `digit (('_')? digit)*`.  Returns the
accumulated value, the number of digits consumed, and the rest.  CPython
allows an underscore only strictly between digits, so one is consumed only
when a digit was already consumed in this group (`n ≠ 0`) and a digit
follows; any other `'_'` is left unconsumed (and then rejected as trailing
junk, as CPython raises ValueError). -/
def parseDigitsAux (acc n : Nat) : List Char → Nat × Nat × List Char
  | [] => (acc, n, [])
  | c :: rest =>
    if c.isDigit then parseDigitsAux (10 * acc + (c.toNat - 48)) (n + 1) rest
    else if c = '_' ∧ n ≠ 0 then
      match rest with
      | d :: rest2 =>
        if d.isDigit then parseDigitsAux (10 * acc + (d.toNat - 48)) (n + 1) rest2
        else (acc, n, c :: rest)
      | [] => (acc, n, c :: rest)
    else (acc, n, c :: rest)

/-- Parse a decimal number with optional fraction and exponent; the whole
remainder after it must be whitespace. -/
def parseNumber (l : List Char) : Option PyVal :=
  match parseDigitsAux 0 0 l with
  | (ip, ni, r1) =>
    let fr : Nat × Nat × List Char :=
      match r1 with
      | '.' :: r => parseDigitsAux 0 0 r
      | _ => (0, 0, r1)
    match fr with
    | (fp, nf, r2) =>
      if ni + nf = 0 then none
      else
        let mant : Int := (ip * 10 ^ nf + fp : Nat)
        match r2 with
        | 'e' :: r3 =>
          match (match r3 with
                 | '+' :: r => (false, r)
                 | '-' :: r => (true, r)
                 | _ => (false, r3)) with
          | (eneg, r4) =>
            match parseDigitsAux 0 0 r4 with
            | (ev, ne', r5) =>
              if ne' = 0 then none
              else if allWs r5 then
                some (if eneg then PyVal.finite mant (nf + ev)
                      else PyVal.finite (mant * (10 ^ ev : Nat)) nf)
              else none
        | 'E' :: r3 =>
          match (match r3 with
                 | '+' :: r => (false, r)
                 | '-' :: r => (true, r)
                 | _ => (false, r3)) with
          | (eneg, r4) =>
            match parseDigitsAux 0 0 r4 with
            | (ev, ne', r5) =>
              if ne' = 0 then none
              else if allWs r5 then
                some (if eneg then PyVal.finite mant (nf + ev)
                      else PyVal.finite (mant * (10 ^ ev : Nat)) nf)
              else none
        | _ => if allWs r2 then some (PyVal.finite mant nf) else none

/-- Case-insensitively strip a (lowercase) pattern off the front. -/
def dropCI : List Char → List Char → Option (List Char)
  | [], l => some l
  | _ :: _, [] => none
  | p :: ps, c :: cs => if c.toLower = p then dropCI ps cs else none

def parseUnsigned (l : List Char) : Option PyVal :=
  match dropCI ['i', 'n', 'f', 'i', 'n', 'i', 't', 'y'] l with
  | some r => if allWs r then some (PyVal.infinite true) else none
  | none =>
    match dropCI ['i', 'n', 'f'] l with
    | some r => if allWs r then some (PyVal.infinite true) else none
    | none =>
      match dropCI ['n', 'a', 'n'] l with
      | some r => if allWs r then some PyVal.nan else none
      | none => parseNumber l

def negVal : PyVal → PyVal
  | PyVal.finite n k => PyVal.finite (-n) k
  | PyVal.infinite _ => PyVal.infinite false
  | PyVal.nan => PyVal.nan

/-- Model of Python's `float(s)` on a character list: `none` means
`ValueError`. -/
def pyFloatChars (l : List Char) : Option PyVal :=
  match l.dropWhile isPyWs with
  | '+' :: r => parseUnsigned r
  | '-' :: r => (parseUnsigned r).map negVal
  | l1 => parseUnsigned l1

/-! ## `is_likely_radio` -/

/-- The check `88.0 <= num <= 108.0` applied to what `float()` returned.
`float()` yields the decimal value correctly rounded to the nearest
IEEE-754 binary64 (ties to even), and the bounds 88.0 and 108.0 are exact
doubles.  Both 88 and 108 lie in the binade `[2^6, 2^7)` (neighbor spacing
`2 ^ (-46)`) and have even significands, so their outward halfway points
`88 - 2 ^ (-47)` and `108 + 2 ^ (-47)` round to 88 and 108; rounding being
monotone, the rounded value is in `[88, 108]` exactly when the parsed value
`num / 10 ^ k` lies in `[88 - 2 ^ (-47), 108 + 2 ^ (-47)]`.  That condition
is decided here cross-multiplied by `10 ^ k * 2 ^ 47` over `Int`.  False
for `inf`, `-inf` and `nan`. -/
def fmRange : PyVal → Bool
  | PyVal.finite num k =>
    decide (88 * ((10 ^ k : Nat) : Int) * 2 ^ 47 - ((10 ^ k : Nat) : Int) ≤
      num * 2 ^ 47) &&
    decide (num * 2 ^ 47 ≤
      108 * ((10 ^ k : Nat) : Int) * 2 ^ 47 + ((10 ^ k : Nat) : Int))
  | PyVal.infinite _ => false
  | PyVal.nan => false

/-- `guide_number.split('-')[0]`. -/
def firstTok (l : List Char) : List Char := l.takeWhile (fun c => !(c == '-'))

def radio_keywords : List String :=
  ["radio", "fm", "am", "music", "npr", "jazz", "classical", "rock",
   "news radio", "talk radio"]

/-- Does `hay` start with `needle`? -/
def leadsWith : List Char → List Char → Bool
  | [], _ => true
  | _ :: _, [] => false
  | a :: t, b :: u => a == b && leadsWith t u

/-- Python's `needle in hay` substring test. -/
def hasSubstr (needle : List Char) : List Char → Bool
  | [] => needle.isEmpty
  | c :: t => leadsWith needle (c :: t) || hasSubstr needle t

def lowerList (l : List Char) : List Char := l.map Char.toLower

/-- `is_likely_radio` from hdhomerun_plugin.py: the FM-band test on the
numeric prefix of the guide number, falling back to the keyword scan of
the lowercased guide name. -/
def is_likely_radio (guide_number guide_name : String) : Bool :=
  (match pyFloatChars (firstTok guide_number.toList) with
   | some v => fmRange v
   | none => false) ||
  radio_keywords.any
    (fun kw => hasSubstr kw.toList (lowerList guide_name.toList))

structure StreamEntry : Type where
  bit_depth : Nat
  sample_rate : Nat
  channels : Nat
  chlayout1 : Nat
  chlayout2 : Nat
  chunk_size : Nat
deriving DecidableEq, Repr

structure PState : Type where
  devices : Dict String
  registered_sources : List String
  channel_urls : Dict String
  channel_names : Dict String
  ffmpeg_processes : Dict Nat
  ffmpeg_pipes : Dict Nat
  active_streams : Dict StreamEntry
  permanent_sources : List (String × String)
  wants_reload : Bool
  os_open_fds : List Nat
  os_next_fd : Nat
  os_procs : List Nat
  os_next_pid : Nat
deriving DecidableEq, Repr

def default_bit_depth : Nat := 16
def default_sample_rate : Nat := 48000
def default_channels : Nat := 2
def default_channel_layout : String := "stereo"

/-- Modelled from the spec: `create_stream_info` lives in the host package
(`screamrouter.audio.scream_header_parser`), not in this repository's
sources.  The spec only says the audio format descriptor is the fixed
profile; the two channel-layout bytes it yields are never inspected by any
claim, so they are fixed values here. -/
def create_stream_info (_bit_depth _sample_rate _channels : Nat)
    (_layout : String) : Nat × Nat := (0, 0)

/-- Modelled from the spec: `get_chunk_size_bytes` is inherited from the
host plugin base class, which is not in this repository's sources.  The
spec defines the chunk size as bytes per sample-frame times
frames-per-chunk (for channels=2, bitDepth=16 that is frames×4). -/
def frames_per_chunk : Nat := 288

def get_chunk_size_bytes (channels bit_depth : Nat) : Nat :=
  frames_per_chunk * (channels * (bit_depth / 8))

/-- First block of `stop_stream`: if the tag has a tracked decode
process, terminate or reap it (afterwards it is no longer among the live
processes) and delete the table entry. -/
def stopProc (s : PState) (source_tag : String) : PState :=
  match dlookup s.ffmpeg_processes source_tag with
  | some pid =>
    { s with os_procs := s.os_procs.erase pid,
             ffmpeg_processes := derase s.ffmpeg_processes source_tag }
  | none => s

/-- Second block of `stop_stream`: if the tag has a tracked pipe read
end, close it (`os.close` inside `try/except OSError`, so an
already-closed descriptor is fine) and delete the table entry. -/
def stopPipe (s : PState) (source_tag : String) : PState :=
  match dlookup s.ffmpeg_pipes source_tag with
  | some fd =>
    { s with os_open_fds := s.os_open_fds.erase fd,
             ffmpeg_pipes := derase s.ffmpeg_pipes source_tag }
  | none => s

/-- Third block of `stop_stream`: drop the session entry if present. -/
def stopActive (s : PState) (source_tag : String) : PState :=
  match dlookup s.active_streams source_tag with
  | some _ => { s with active_streams := derase s.active_streams source_tag }
  | none => s

/-- `stop_stream`: terminate (or reap) the decode process, close the pipe
read end (ignoring already-closed errors), drop all three table entries. -/
def stop_stream (s : PState) (source_tag : String) : PState :=
  stopActive (stopPipe (stopProc s source_tag) source_tag) source_tag

/-- Environment of one `start_stream` call: whether `os.pipe()` succeeds and
whether `subprocess.Popen` succeeds (an exception from either lands in the
`except` handler). -/
structure StartEnv : Type where
  pipe_ok : Bool
  popen_ok : Bool
deriving DecidableEq, Repr

/-- `start_stream`: no-op failure for unknown tags, no-op success for
already-active tags; otherwise allocate a pipe, launch the decoder, close
the parent's write end, record the process and read end, and record the
session entry.  An exception runs `stop_stream` and returns false. -/
def start_stream (env : StartEnv) (s : PState) (source_tag : String) :
    PState × Bool :=
  if (dlookup s.channel_urls source_tag).isNone then (s, false)
  else if (dlookup s.active_streams source_tag).isSome then (s, true)
  else if env.pipe_ok = false then (stop_stream s source_tag, false)
  else
    let read_fd := s.os_next_fd
    let write_fd := s.os_next_fd + 1
    let s1 := { s with os_open_fds := s.os_open_fds ++ [read_fd, write_fd],
                       os_next_fd := s.os_next_fd + 2 }
    if env.popen_ok = false then (stop_stream s1 source_tag, false)
    else
      let pid := s1.os_next_pid
      let s2 := { s1 with os_procs := s1.os_procs ++ [pid],
                          os_next_pid := pid + 1 }
      let s3 := { s2 with os_open_fds := s2.os_open_fds.erase write_fd }
      let s4 := { s3 with
                  ffmpeg_processes := dset s3.ffmpeg_processes source_tag pid,
                  ffmpeg_pipes := dset s3.ffmpeg_pipes source_tag read_fd }
      let info := create_stream_info default_bit_depth default_sample_rate
        default_channels default_channel_layout
      let entry : StreamEntry :=
        { bit_depth := default_bit_depth,
          sample_rate := default_sample_rate,
          channels := default_channels,
          chlayout1 := info.1,
          chlayout2 := info.2,
          chunk_size := get_chunk_size_bytes default_channels default_bit_depth }
      ({ s4 with active_streams := dset s4.active_streams source_tag entry },
        true)

/-- Outcome of the `select` + `os.read` step of one poll. -/
inductive ReadOutcome : Type where
  | notReady
  | bytes (n : Nat)
  | err
deriving DecidableEq, Repr

/-- Environment of one `get_audio_data` call: launch outcomes for the (up
to two) `start_stream` calls it can make, whether `poll()` reports the
decoder dead, and the pipe-read outcome (`bytes 0` is EOF). -/
structure AudioEnv : Type where
  start1 : StartEnv
  start2 : StartEnv
  ffmpeg_dead : Bool
  read : ReadOutcome
deriving DecidableEq, Repr

/-- Start-if-not-active step of `get_audio_data`. -/
def gadStart (env : AudioEnv) (s : PState) (source_tag : String) :
    PState × Bool :=
  if (dlookup s.active_streams source_tag).isNone then
    start_stream env.start1 s source_tag
  else (s, true)

/-- Dead-decoder check of `get_audio_data`: a tracked process that has
exited is stopped and restarted. -/
def gadRestart (env : AudioEnv) (s : PState) (source_tag : String) :
    PState × Bool :=
  if (dlookup s.ffmpeg_processes source_tag).isSome && env.ffmpeg_dead then
    start_stream env.start2 (stop_stream s source_tag) source_tag
  else (s, true)

/-- Pipe-read step of `get_audio_data`: any non-empty read is returned,
a zero-length read (EOF) or a read error tears the session down, and an
idle pipe yields `num_bytes` of silence.  Returned data is tracked by its
byte count. -/
def gadRead (env : AudioEnv) (s : PState) (source_tag : String)
    (num_bytes : Nat) : PState × Option Nat :=
  if (dlookup s.ffmpeg_pipes source_tag).isSome then
    match env.read with
    | ReadOutcome.notReady => (s, some num_bytes)
    | ReadOutcome.bytes n =>
      if n ≠ 0 then (s, some n) else (stop_stream s source_tag, none)
    | ReadOutcome.err => (stop_stream s source_tag, none)
  else (s, none)

/-- `get_audio_data` from hdhomerun_plugin.py. -/
def get_audio_data (env : AudioEnv) (s : PState) (source_tag : String)
    (num_bytes : Nat) : PState × Option Nat :=
  if (dlookup s.channel_urls source_tag).isNone then (s, none)
  else
    let p1 := gadStart env s source_tag
    if p1.2 = false then (p1.1, none)
    else
      let p2 := gadRestart env p1.1 source_tag
      if p2.2 = false then (p2.1, none)
      else gadRead env p2.1 source_tag num_bytes

/-! ## Tag derivation and the lineup fetcher -/

/-- Python's `s.replace(a, b)` for single characters. -/
def pyReplace (s : String) (a b : Char) : String :=
  String.mk (s.toList.map (fun c => if c = a then b else c))

/-- The tag built in `fetch_stations_from_device`:
`f"hdhomerun_{device_ip.replace('.', '_')}_{guide_number.replace('.', '_')}"`. -/
def tagFor (device_ip guide_number : String) : String :=
  String.mk ("hdhomerun_".toList ++ (pyReplace device_ip '.' '_').toList
    ++ '_' :: (pyReplace guide_number '.' '_').toList)

/-- One lineup entry, with the `.get` defaults already applied
(`GuideNumber` → `""`, `GuideName` → `"Unknown"`, `URL` → `""`). -/
structure Station : Type where
  guideNumber : String
  guideName : String
  url : String
deriving DecidableEq, Repr

/-- The display name stored for a channel:
`f"HDHomeRun [{device_name}]: {guide_name} ({guide_number})"`. -/
def displayName (device_name : String) (st : Station) : String :=
  "HDHomeRun [" ++ device_name ++ "]: " ++ st.guideName
    ++ " (" ++ st.guideNumber ++ ")"

/-- The body of the per-station loop of `fetch_stations_from_device`:
skip URL-less entries and non-radio entries, skip tags already
registered, otherwise store the URL and display name, add the permanent
source, and mark the tag registered. -/
def processStation (device_ip device_name : String) (s : PState)
    (st : Station) : PState :=
  if st.url = "" then s
  else if !(is_likely_radio st.guideNumber st.guideName) then s
  else if tagFor device_ip st.guideNumber ∈ s.registered_sources then s
  else
    { s with
      channel_urls := dset s.channel_urls (tagFor device_ip st.guideNumber)
        st.url,
      channel_names := dset s.channel_names (tagFor device_ip st.guideNumber)
        (displayName device_name st),
      permanent_sources := s.permanent_sources ++
        [(displayName device_name st, tagFor device_ip st.guideNumber)],
      registered_sources := s.registered_sources ++
        [tagFor device_ip st.guideNumber] }

/-- `fetch_stations_from_device` on a successfully fetched lineup (network
failure leaves the state untouched and is handled by the caller). -/
def fetch_stations_from_device (device_ip device_name : String)
    (lineup : List Station) (s : PState) : PState :=
  if lineup.isEmpty then s
  else { lineup.foldl (processStation device_ip device_name) s with
         wants_reload := true }

/-! ## Route reconciliation (`check_active_routes`)

The active-routes HTTP response is passed in as a list of records; the
reconciler also returns the list of start/stop calls it issued, with each
start call tagged by the value `start_stream` returned. -/

structure Route : Type where
  enabled : Bool
  source : String
deriving DecidableEq, Repr

/-- `{name: tag for tag, name in self.channel_names.items()}`. -/
def name_to_tag (names : Dict String) : Dict String :=
  names.foldl (fun acc p => dset acc p.2 p.1) []

/-- Add to the active-tag set (Python `set.add`; membership is what the
reconciler consumes, insertion order is kept for determinism). -/
def addActive (l : List String) (t : String) : List String :=
  if t ∈ l then l else l ++ [t]

/-- The active-tag set computed from the routes response: enabled routes
whose source matches a channel display name (via the reverse lookup) or a
tag directly. -/
def computeActiveTags (s : PState) (routes : List Route) : List String :=
  routes.foldl
    (fun acc r =>
      if r.enabled = false then acc
      else
        match dlookup (name_to_tag s.channel_names) r.source with
        | some tag => addActive acc tag
        | none =>
          if (dlookup s.channel_urls r.source).isSome then
            addActive acc r.source
          else acc)
    []

inductive Call : Type where
  | start (tag : String) (ok : Bool)
  | stop (tag : String)
deriving DecidableEq, Repr

/-- Start loop of `check_active_routes`: start every active tag that has
no running session. -/
def runStarts (env : String → StartEnv) :
    List String → PState → PState × List Call
  | [], s => (s, [])
  | t :: ts, s =>
    if (dlookup s.active_streams t).isSome then runStarts env ts s
    else
      let p := start_stream (env t) s t
      let q := runStarts env ts p.1
      (q.1, Call.start t p.2 :: q.2)

/-- Stop loop of `check_active_routes`: stop every session (snapshot of
the keys) whose tag is no longer active. -/
def runStops (active_tags : List String) :
    List String → PState → PState × List Call
  | [], s => (s, [])
  | t :: ts, s =>
    if t ∈ active_tags then runStops active_tags ts s
    else
      let q := runStops active_tags ts (stop_stream s t)
      (q.1, Call.stop t :: q.2)

/-- `check_active_routes` on a successfully fetched routes response. -/
def check_active_routes (env : String → StartEnv) (routes : List Route)
    (s : PState) : PState × List Call :=
  let tags := computeActiveTags s routes
  let p := runStarts env tags s
  let q := runStops tags (p.1.active_streams.map Prod.fst) p.1
  (q.1, p.2 ++ q.2)

/-! ## Concrete states used by counterexamples and witnesses -/

/-- A fresh plugin state: every table empty; fd and pid counters at
arbitrary concrete values. -/
def blankState : PState :=
  { devices := [], registered_sources := [], channel_urls := [],
    channel_names := [], ffmpeg_processes := [], ffmpeg_pipes := [],
    active_streams := [], permanent_sources := [], wants_reload := false,
    os_open_fds := [], os_next_fd := 10, os_procs := [], os_next_pid := 7 }

/-- A state that knows one channel (tag `"t"`) but has no session for it. -/
def oneChannelState : PState :=
  { blankState with
    channel_urls := [("t", "http://192.168.1.50:5004/auto/v95.5")],
    channel_names := [("t", "HDHomeRun [HDHR]: Jazz FM (95.5)")],
    registered_sources := ["t"] }

/-- A state with a live session for tag `"t"`: decoder pid 7 alive, pipe
read end 10 open, session entry recorded. -/
def liveSessionState : PState :=
  { oneChannelState with
    ffmpeg_processes := [("t", 7)],
    ffmpeg_pipes := [("t", 10)],
    active_streams :=
      [("t", { bit_depth := 16, sample_rate := 48000, channels := 2,
               chlayout1 := 0, chlayout2 := 0,
               chunk_size := get_chunk_size_bytes 2 16 })],
    os_open_fds := [10], os_next_fd := 12, os_procs := [7],
    os_next_pid := 8 }

/-- A one-station lineup carrying the stream URL `http://old`. -/
def lineupOld : List Station :=
  [{ guideNumber := "95.5", guideName := "Jazz FM", url := "http://old" }]

/-- The same station on a later fetch, now with URL `http://new`. -/
def lineupNew : List Station :=
  [{ guideNumber := "95.5", guideName := "Jazz FM", url := "http://new" }]

/-! ## Theorems -/

theorem dlookup_dset {α : Type} (d : Dict α) (k u : String) (v : α) :
    dlookup (dset d k v) u = if k = u then some v else dlookup d u := by
  induction d with
  | nil => simp [dset, dlookup]
  | cons p t ih =>
    obtain ⟨a, b⟩ := p
    by_cases hak : a = k
    · subst hak
      by_cases hau : a = u <;> simp [dset, dlookup, hau]
    · by_cases hau : a = u
      · subst hau
        simp [dset, hak, dlookup, Ne.symm hak]
      · simp [dset, hak, dlookup, hau, ih]

theorem dset_ne_nil {α : Type} (d : Dict α) (k : String) (v : α) :
    dset d k v ≠ [] := by
  cases d with
  | nil => simp [dset]
  | cons p t =>
    obtain ⟨a, b⟩ := p
    by_cases h : a = k <;> simp [dset, h]

theorem dupdate_eq_nil_iff {α : Type} (l d : Dict α) :
    dupdate d l = [] ↔ d = [] ∧ l = [] := by
  induction l generalizing d with
  | nil => simp [dupdate]
  | cons p t ih =>
    constructor
    · intro h
      have : dupdate (dset d p.1 p.2) t = [] := h
      rcases (ih (dset d p.1 p.2)).mp this with ⟨hs, _⟩
      exact absurd hs (dset_ne_nil d p.1 p.2)
    · rintro ⟨_, h⟩
      exact absurd h (by simp)

theorem dlookup_eq_none_of_not_mem {α : Type} (d : Dict α) (k : String)
    (h : k ∉ d.map Prod.fst) : dlookup d k = none := by
  induction d with
  | nil => rfl
  | cons p t ih =>
    simp only [List.map_cons, List.mem_cons] at h
    push_neg at h
    obtain ⟨a, b⟩ := p
    simp only [dlookup]
    rw [if_neg (fun hh => h.1 hh.symm)]
    exact ih h.2

theorem dlookup_dupdate {α : Type} (l d : Dict α) (k : String)
    (h : keysNodup l) :
    dlookup (dupdate d l) k = oor (dlookup l k) (dlookup d k) := by
  induction l generalizing d with
  | nil => simp [dupdate, dlookup, oor]
  | cons p t ih =>
    obtain ⟨a, b⟩ := p
    have hnd : keysNodup t := by
      simpa [keysNodup] using (List.nodup_cons.mp h).2
    have hna : a ∉ t.map Prod.fst := by
      simpa [keysNodup] using (List.nodup_cons.mp h).1
    have : dupdate d ((a, b) :: t) = dupdate (dset d a b) t := rfl
    rw [this, ih (dset d a b) hnd]
    by_cases hak : a = k
    · subst hak
      rw [dlookup_eq_none_of_not_mem t a hna]
      simp [dlookup, oor, dlookup_dset]
    · simp [dlookup, hak, oor, dlookup_dset]

/-- C1, counterexample: the claim says that when Service-Announcement (mDNS)
and Broadcast both report the same IP, the mDNS entry is retained (first
writer wins).  In the code `all_devices.update(broadcast_devices)` runs after
`all_devices.update(mdns_devices)`, and `dict.update` overwrites, so the
Broadcast name is what remains. -/
theorem claim_C1_counterexample :
    dlookup (discover_all_methods [("192.168.1.50", "Tuner mDNS")]
        [("192.168.1.50", "Tuner Broadcast")] []).1 "192.168.1.50" =
      some "Tuner Broadcast" ∧ ("Tuner Broadcast" : String) ≠ "Tuner mDNS" := by
  constructor
  · rfl
  · decide

/-- C1, amended: the returned map is the mDNS map merged with the Broadcast
map where, for an IP present in both, the entry written by the *later*
strategy (Broadcast) is retained; the subnet sweep runs iff the merge of the
first two maps is empty (equivalently, both are empty). -/
theorem claim_C1 (mdns broadcast subnet : Dict String) (ip : String)
    (hm : keysNodup mdns) (hb : keysNodup broadcast) :
    ((discover_all_methods mdns broadcast subnet).2 = true ↔
      (mdns = [] ∧ broadcast = [])) ∧
    (¬(mdns = [] ∧ broadcast = []) →
      dlookup (discover_all_methods mdns broadcast subnet).1 ip =
        oor (dlookup broadcast ip) (dlookup mdns ip)) := by
  have hmerge : dlookup (dupdate (dupdate [] mdns) broadcast) ip =
      oor (dlookup broadcast ip) (dlookup mdns ip) := by
    rw [dlookup_dupdate broadcast _ ip hb, dlookup_dupdate mdns [] ip hm]
    cases dlookup broadcast ip <;> cases dlookup mdns ip <;> simp [oor, dlookup]
  have hnil : dupdate (dupdate [] mdns) broadcast = [] ↔
      (mdns = [] ∧ broadcast = []) := by
    rw [dupdate_eq_nil_iff, dupdate_eq_nil_iff]
    tauto
  constructor
  · by_cases h : (dupdate (dupdate [] mdns) broadcast).isEmpty
    · simp only [discover_all_methods, h, if_true]
      simpa [List.isEmpty_iff] using (hnil.mp (List.isEmpty_iff.mp h))
    · simp only [discover_all_methods, h, if_false]
      constructor
      · intro hc
        exact absurd hc (by simp)
      · intro hc
        exact absurd (List.isEmpty_iff.mpr (hnil.mpr hc)) h
  · intro hne
    have h : ¬(dupdate (dupdate [] mdns) broadcast).isEmpty := by
      intro hc
      exact hne (hnil.mp (List.isEmpty_iff.mp hc))
    simp only [discover_all_methods, h, if_false]
    exact hmerge

/-- Witness for C1 at a concrete pair of strategy results. -/
theorem claim_C1_witness :
    (((discover_all_methods [("10.0.0.9", "A")] [("10.0.0.9", "B")] []).2 = true) ↔
      (([("10.0.0.9", "A")] : Dict String) = [] ∧
        ([("10.0.0.9", "B")] : Dict String) = [])) ∧
    (¬(([("10.0.0.9", "A")] : Dict String) = [] ∧
        ([("10.0.0.9", "B")] : Dict String) = []) →
      dlookup (discover_all_methods [("10.0.0.9", "A")] [("10.0.0.9", "B")] []).1
          "10.0.0.9" =
        oor (dlookup [("10.0.0.9", "B")] "10.0.0.9")
          (dlookup [("10.0.0.9", "A")] "10.0.0.9")) :=
  claim_C1 [("10.0.0.9", "A")] [("10.0.0.9", "B")] [] "10.0.0.9"
    (by decide) (by decide)

theorem dlookup_derase {α : Type} (d : Dict α) (k u : String) :
    dlookup (derase d k) u = if k = u then none else dlookup d u := by
  induction d with
  | nil => simp [derase, dlookup]
  | cons p t ih =>
    obtain ⟨a, b⟩ := p
    by_cases hak : a = k
    · subst hak
      rw [show derase ((a, b) :: t) a = derase t a from by simp [derase], ih]
      rcases eq_or_ne a u with hau | hau
      · subst hau
        simp [dlookup]
      · simp [dlookup, hau]
    · rw [show derase ((a, b) :: t) k = (a, b) :: derase t k from by
        simp [derase, hak]]
      rcases eq_or_ne a u with hau | hau
      · subst hau
        have hka : ¬k = a := fun h => hak h.symm
        simp [dlookup, hka]
      · simp [dlookup, hau, ih]

theorem derase_of_lookup_none {α : Type} (d : Dict α) (k : String)
    (h : dlookup d k = none) : derase d k = d := by
  induction d with
  | nil => rfl
  | cons p t ih =>
    obtain ⟨a, b⟩ := p
    simp only [dlookup] at h
    by_cases hak : a = k
    · rw [if_pos hak] at h
      exact absurd h (by simp)
    · rw [if_neg hak] at h
      simp [derase, hak, ih h]

theorem mem_keys_derase {α : Type} (d : Dict α) (k u : String)
    (h : u ∈ (derase d k).map Prod.fst) : u ∈ d.map Prod.fst := by
  induction d with
  | nil => exact absurd h (by simp [derase])
  | cons p t ih =>
    obtain ⟨a, b⟩ := p
    by_cases hak : a = k
    · simp only [derase, if_pos hak] at h
      simp [ih h]
    · simp only [derase, if_neg hak, List.map_cons, List.mem_cons] at h
      rcases h with h | h
      · simp [h]
      · simp [ih h]

theorem keysNodup_derase {α : Type} (d : Dict α) (k : String)
    (h : keysNodup d) : keysNodup (derase d k) := by
  induction d with
  | nil => simpa [derase] using h
  | cons p t ih =>
    obtain ⟨a, b⟩ := p
    rw [keysNodup, List.map_cons, List.nodup_cons] at h
    by_cases hak : a = k
    · simp only [derase, if_pos hak]
      exact ih h.2
    · simp only [derase, if_neg hak]
      rw [keysNodup, List.map_cons, List.nodup_cons]
      exact ⟨fun hm => h.1 (mem_keys_derase t k a hm), ih h.2⟩

theorem mem_keys_dset {α : Type} (d : Dict α) (k u : String) (v : α) :
    u ∈ (dset d k v).map Prod.fst ↔ u = k ∨ u ∈ d.map Prod.fst := by
  induction d with
  | nil => simp [dset]
  | cons p t ih =>
    obtain ⟨a, b⟩ := p
    by_cases hak : a = k
    · subst hak
      simp [dset]
    · simp [dset, hak, ih]
      tauto

theorem keysNodup_dset {α : Type} (d : Dict α) (k : String) (v : α)
    (h : keysNodup d) : keysNodup (dset d k v) := by
  induction d with
  | nil => simp [dset, keysNodup]
  | cons p t ih =>
    obtain ⟨a, b⟩ := p
    rw [keysNodup, List.map_cons, List.nodup_cons] at h
    by_cases hak : a = k
    · subst hak
      rw [show dset ((a, b) :: t) a v = (a, v) :: t from by simp [dset]]
      rw [keysNodup, List.map_cons, List.nodup_cons]
      exact h
    · rw [show dset ((a, b) :: t) k v = (a, b) :: dset t k v from by
        simp [dset, hak]]
      rw [keysNodup, List.map_cons, List.nodup_cons]
      refine ⟨?_, ih h.2⟩
      intro hmem
      rcases (mem_keys_dset t k a v).mp hmem with h1 | h2
      · exact hak h1
      · exact h.1 h2

/-! ### `stop_stream` facts -/

theorem stopProc_pipes (s : PState) (t : String) :
    (stopProc s t).ffmpeg_pipes = s.ffmpeg_pipes := by
  unfold stopProc
  cases dlookup s.ffmpeg_processes t <;> rfl

theorem stopProc_active (s : PState) (t : String) :
    (stopProc s t).active_streams = s.active_streams := by
  unfold stopProc
  cases dlookup s.ffmpeg_processes t <;> rfl

theorem stopProc_urls (s : PState) (t : String) :
    (stopProc s t).channel_urls = s.channel_urls := by
  unfold stopProc
  cases dlookup s.ffmpeg_processes t <;> rfl

theorem stopProc_names (s : PState) (t : String) :
    (stopProc s t).channel_names = s.channel_names := by
  unfold stopProc
  cases dlookup s.ffmpeg_processes t <;> rfl

theorem stopPipe_procs (s : PState) (t : String) :
    (stopPipe s t).ffmpeg_processes = s.ffmpeg_processes := by
  unfold stopPipe
  cases dlookup s.ffmpeg_pipes t <;> rfl

theorem stopPipe_active (s : PState) (t : String) :
    (stopPipe s t).active_streams = s.active_streams := by
  unfold stopPipe
  cases dlookup s.ffmpeg_pipes t <;> rfl

theorem stopPipe_urls (s : PState) (t : String) :
    (stopPipe s t).channel_urls = s.channel_urls := by
  unfold stopPipe
  cases dlookup s.ffmpeg_pipes t <;> rfl

theorem stopPipe_names (s : PState) (t : String) :
    (stopPipe s t).channel_names = s.channel_names := by
  unfold stopPipe
  cases dlookup s.ffmpeg_pipes t <;> rfl

theorem stopActive_procs (s : PState) (t : String) :
    (stopActive s t).ffmpeg_processes = s.ffmpeg_processes := by
  unfold stopActive
  cases dlookup s.active_streams t <;> rfl

theorem stopActive_pipes (s : PState) (t : String) :
    (stopActive s t).ffmpeg_pipes = s.ffmpeg_pipes := by
  unfold stopActive
  cases dlookup s.active_streams t <;> rfl

theorem stopActive_urls (s : PState) (t : String) :
    (stopActive s t).channel_urls = s.channel_urls := by
  unfold stopActive
  cases dlookup s.active_streams t <;> rfl

theorem stopActive_names (s : PState) (t : String) :
    (stopActive s t).channel_names = s.channel_names := by
  unfold stopActive
  cases dlookup s.active_streams t <;> rfl

theorem stopProc_procs_none (s : PState) (t : String) :
    dlookup (stopProc s t).ffmpeg_processes t = none := by
  unfold stopProc
  cases hp : dlookup s.ffmpeg_processes t <;> simp [hp, dlookup_derase]

theorem stopPipe_pipes_none (s : PState) (t : String) :
    dlookup (stopPipe s t).ffmpeg_pipes t = none := by
  unfold stopPipe
  cases hp : dlookup s.ffmpeg_pipes t <;> simp [hp, dlookup_derase]

theorem stopActive_active_none (s : PState) (t : String) :
    dlookup (stopActive s t).active_streams t = none := by
  unfold stopActive
  cases hp : dlookup s.active_streams t <;> simp [hp, dlookup_derase]

theorem stopActive_active_ne (s : PState) (t u : String) (h : u ≠ t) :
    dlookup (stopActive s t).active_streams u = dlookup s.active_streams u := by
  unfold stopActive
  cases hp : dlookup s.active_streams t <;>
    simp [hp, dlookup_derase, (Ne.symm h : t ≠ u)]

theorem stopProc_noop (s : PState) (t : String)
    (h : dlookup s.ffmpeg_processes t = none) : stopProc s t = s := by
  unfold stopProc
  rw [h]

theorem stopPipe_noop (s : PState) (t : String)
    (h : dlookup s.ffmpeg_pipes t = none) : stopPipe s t = s := by
  unfold stopPipe
  rw [h]

theorem stopActive_noop (s : PState) (t : String)
    (h : dlookup s.active_streams t = none) : stopActive s t = s := by
  unfold stopActive
  rw [h]

theorem stop_stream_urls (s : PState) (t : String) :
    (stop_stream s t).channel_urls = s.channel_urls := by
  unfold stop_stream
  rw [stopActive_urls, stopPipe_urls, stopProc_urls]

theorem stop_stream_names (s : PState) (t : String) :
    (stop_stream s t).channel_names = s.channel_names := by
  unfold stop_stream
  rw [stopActive_names, stopPipe_names, stopProc_names]

theorem stop_stream_procs_none (s : PState) (t : String) :
    dlookup (stop_stream s t).ffmpeg_processes t = none := by
  unfold stop_stream
  rw [stopActive_procs, stopPipe_procs]
  exact stopProc_procs_none s t

theorem stop_stream_pipes_none (s : PState) (t : String) :
    dlookup (stop_stream s t).ffmpeg_pipes t = none := by
  unfold stop_stream
  rw [stopActive_pipes]
  exact stopPipe_pipes_none _ t

theorem stop_stream_active_none (s : PState) (t : String) :
    dlookup (stop_stream s t).active_streams t = none :=
  stopActive_active_none _ t

theorem stop_stream_active_ne (s : PState) (t u : String) (h : u ≠ t) :
    dlookup (stop_stream s t).active_streams u = dlookup s.active_streams u := by
  unfold stop_stream
  rw [stopActive_active_ne _ t u h, stopPipe_active, stopProc_active]

theorem stop_stream_noop (s : PState) (t : String)
    (h1 : dlookup s.ffmpeg_processes t = none)
    (h2 : dlookup s.ffmpeg_pipes t = none)
    (h3 : dlookup s.active_streams t = none) :
    stop_stream s t = s := by
  unfold stop_stream
  rw [stopProc_noop s t h1, stopPipe_noop s t h2, stopActive_noop s t h3]

theorem stop_stream_nodup_active (s : PState) (t : String)
    (h : keysNodup s.active_streams) :
    keysNodup (stop_stream s t).active_streams := by
  have h2 : keysNodup (stopPipe (stopProc s t) t).active_streams := by
    rw [stopPipe_active, stopProc_active]
    exact h
  unfold stop_stream stopActive
  cases hp : dlookup (stopPipe (stopProc s t) t).active_streams t
  · exact h2
  · exact keysNodup_derase _ _ h2

/-! ### `start_stream` facts -/

theorem start_stream_of_url_none (e : StartEnv) (s : PState) (t : String)
    (h : dlookup s.channel_urls t = none) : start_stream e s t = (s, false) := by
  unfold start_stream
  simp [h]

theorem start_stream_of_active (e : StartEnv) (s : PState) (t : String)
    (hu : (dlookup s.channel_urls t).isSome)
    (ha : (dlookup s.active_streams t).isSome) :
    start_stream e s t = (s, true) := by
  obtain ⟨u, hu⟩ := Option.isSome_iff_exists.mp hu
  obtain ⟨a, ha⟩ := Option.isSome_iff_exists.mp ha
  unfold start_stream
  simp [hu, ha]

theorem start_stream_pipe_fail (e : StartEnv) (s : PState) (t : String)
    (hu : (dlookup s.channel_urls t).isSome)
    (ha : dlookup s.active_streams t = none)
    (hp : e.pipe_ok = false) :
    start_stream e s t = (stop_stream s t, false) := by
  obtain ⟨u, hu⟩ := Option.isSome_iff_exists.mp hu
  unfold start_stream
  simp [hu, ha, hp]

theorem start_stream_popen_fail (e : StartEnv) (s : PState) (t : String)
    (hu : (dlookup s.channel_urls t).isSome)
    (ha : dlookup s.active_streams t = none)
    (hp : e.pipe_ok = true) (ho : e.popen_ok = false) :
    start_stream e s t =
      (stop_stream
        { s with os_open_fds := s.os_open_fds ++ [s.os_next_fd, s.os_next_fd + 1],
                 os_next_fd := s.os_next_fd + 2 } t, false) := by
  obtain ⟨u, hu⟩ := Option.isSome_iff_exists.mp hu
  unfold start_stream
  simp [hu, ha, hp, ho]

theorem start_stream_urls (e : StartEnv) (s : PState) (t : String) :
    (start_stream e s t).1.channel_urls = s.channel_urls := by
  unfold start_stream
  rcases hu : dlookup s.channel_urls t with _ | u
  · simp [hu]
  · rcases ha : dlookup s.active_streams t with _ | a
    · cases hp : e.pipe_ok
      · simp [hu, ha, hp, stop_stream_urls]
      · cases ho : e.popen_ok
        · simp [hu, ha, hp, ho, stop_stream_urls]
        · simp [hu, ha, hp, ho]
    · simp [hu, ha]

theorem start_stream_names (e : StartEnv) (s : PState) (t : String) :
    (start_stream e s t).1.channel_names = s.channel_names := by
  unfold start_stream
  rcases hu : dlookup s.channel_urls t with _ | u
  · simp [hu]
  · rcases ha : dlookup s.active_streams t with _ | a
    · cases hp : e.pipe_ok
      · simp [hu, ha, hp, stop_stream_names]
      · cases ho : e.popen_ok
        · simp [hu, ha, hp, ho, stop_stream_names]
        · simp [hu, ha, hp, ho]
    · simp [hu, ha]

theorem start_stream_active_ne (e : StartEnv) (s : PState) (t u : String)
    (h : u ≠ t) :
    dlookup (start_stream e s t).1.active_streams u =
      dlookup s.active_streams u := by
  unfold start_stream
  rcases hu : dlookup s.channel_urls t with _ | x
  · simp [hu]
  · rcases ha : dlookup s.active_streams t with _ | a
    · cases hp : e.pipe_ok
      · simp [hu, ha, hp, stop_stream_active_ne _ _ _ h]
      · cases ho : e.popen_ok
        · simp [hu, ha, hp, ho, stop_stream_active_ne _ _ _ h]
        · simp [hu, ha, hp, ho, dlookup_dset, (Ne.symm h : t ≠ u)]
    · simp [hu, ha]

theorem start_stream_active_mono_self (e : StartEnv) (s : PState) (t : String)
    (h : (dlookup s.active_streams t).isSome) :
    (dlookup (start_stream e s t).1.active_streams t).isSome := by
  rcases hu : dlookup s.channel_urls t with _ | u
  · rw [start_stream_of_url_none e s t hu]
    exact h
  · rw [start_stream_of_active e s t (by simp [hu]) h]
    exact h

theorem start_stream_success_active (e : StartEnv) (s : PState) (t : String)
    (h : (start_stream e s t).2 = true) :
    (dlookup (start_stream e s t).1.active_streams t).isSome := by
  by_cases hu : (dlookup s.channel_urls t).isSome
  · by_cases ha : (dlookup s.active_streams t).isSome
    · rw [start_stream_of_active e s t hu ha]
      exact ha
    · rw [Option.not_isSome_iff_eq_none] at ha
      cases hp : e.pipe_ok
      · rw [start_stream_pipe_fail e s t hu ha hp] at h
        exact absurd h (by simp)
      · cases ho : e.popen_ok
        · rw [start_stream_popen_fail e s t hu ha hp ho] at h
          exact absurd h (by simp)
        · obtain ⟨u, hu⟩ := Option.isSome_iff_exists.mp hu
          unfold start_stream
          simp [hu, ha, hp, ho, dlookup_dset]
  · rw [Option.not_isSome_iff_eq_none] at hu
    rw [start_stream_of_url_none e s t hu] at h
    exact absurd h (by simp)

theorem start_stream_nodup_active (e : StartEnv) (s : PState) (t : String)
    (h : keysNodup s.active_streams) :
    keysNodup (start_stream e s t).1.active_streams := by
  unfold start_stream
  rcases hu : dlookup s.channel_urls t with _ | u
  · simpa [hu] using h
  · rcases ha : dlookup s.active_streams t with _ | a
    · cases hp : e.pipe_ok
      · simpa [hu, ha, hp] using stop_stream_nodup_active s t h
      · cases ho : e.popen_ok
        · simpa [hu, ha, hp, ho] using stop_stream_nodup_active _ t
            (by simpa using h)
        · simpa [hu, ha, hp, ho] using keysNodup_dset _ t _ h
    · simpa [hu, ha] using h

/-- C9: `stop_stream` is idempotent and total: on a tag with no session
state it is a no-op; stopping twice equals stopping once; and after any
call the tag is absent from the process, pipe, and active-session
tables. -/
theorem claim_C9 :
    (∀ s t, dlookup s.ffmpeg_processes t = none →
      dlookup s.ffmpeg_pipes t = none →
      dlookup s.active_streams t = none → stop_stream s t = s) ∧
    (∀ s t, stop_stream (stop_stream s t) t = stop_stream s t) ∧
    (∀ s t, dlookup (stop_stream s t).ffmpeg_processes t = none ∧
      dlookup (stop_stream s t).ffmpeg_pipes t = none ∧
      dlookup (stop_stream s t).active_streams t = none) :=
  ⟨fun s t h1 h2 h3 => stop_stream_noop s t h1 h2 h3,
   fun s t => stop_stream_noop _ t (stop_stream_procs_none s t)
     (stop_stream_pipes_none s t) (stop_stream_active_none s t),
   fun s t => ⟨stop_stream_procs_none s t, stop_stream_pipes_none s t,
     stop_stream_active_none s t⟩⟩

/-- Witness for C9: stopping a tag with no session on a fresh state is a
no-op. -/
theorem claim_C9_witness : stop_stream blankState "t" = blankState :=
  claim_C9.1 blankState "t" rfl rfl rfl

/-- C10: for a tag not in the channel-URL registry, `get_audio_data`
returns `none` and leaves the state untouched. -/
theorem claim_C10 (env : AudioEnv) (s : PState) (t : String) (n : Nat)
    (h : dlookup s.channel_urls t = none) :
    get_audio_data env s t n = (s, none) := by
  unfold get_audio_data
  simp [h]

/-- Witness for C10 on a fresh state that registers no channels. -/
theorem claim_C10_witness :
    get_audio_data ⟨⟨true, true⟩, ⟨true, true⟩, false, ReadOutcome.notReady⟩
      blankState "t" 1152 = (blankState, none) :=
  claim_C10 _ blankState "t" 1152 rfl

/-- C2, counterexample: the claim says only reads of exactly the computed
chunk size (1152 bytes for channels=2, bitDepth=16) are forwarded and any
shorter non-empty read is discarded.  In the code `get_audio_data` returns
any non-empty `os.read` result unchanged: polling a live session whose
pipe yields 7 bytes forwards those 7 bytes. -/
theorem claim_C2_counterexample :
    get_audio_data ⟨⟨true, true⟩, ⟨true, true⟩, false, ReadOutcome.bytes 7⟩
        liveSessionState "t" (get_chunk_size_bytes 2 16) =
      (liveSessionState, some 7) ∧ (7 : Nat) ≠ get_chunk_size_bytes 2 16 := by
  decide

/-- C2, amended: a poll of a running session whose decoder has not exited
and whose pipe has data forwards the non-empty read to the host unchanged,
whatever its byte count — no chunk-size comparison is applied, so a read
shorter than the chunk size is forwarded rather than discarded. -/
theorem claim_C2 (env : AudioEnv) (s : PState) (t : String) (n k : Nat)
    (hu : (dlookup s.channel_urls t).isSome)
    (ha : (dlookup s.active_streams t).isSome)
    (hd : env.ffmpeg_dead = false)
    (hp : (dlookup s.ffmpeg_pipes t).isSome)
    (hr : env.read = ReadOutcome.bytes k) (hk : k ≠ 0) :
    get_audio_data env s t n = (s, some k) := by
  obtain ⟨u, hu⟩ := Option.isSome_iff_exists.mp hu
  obtain ⟨a, ha⟩ := Option.isSome_iff_exists.mp ha
  obtain ⟨fd, hp⟩ := Option.isSome_iff_exists.mp hp
  unfold get_audio_data gadStart gadRestart gadRead
  simp [hu, ha, hd, hp, hr, hk]

/-- Witness for C2 (amended) at a live session reading 4 bytes. -/
theorem claim_C2_witness :
    get_audio_data ⟨⟨true, true⟩, ⟨true, true⟩, false, ReadOutcome.bytes 4⟩
        liveSessionState "t" 1152 = (liveSessionState, some 4) :=
  claim_C2 _ liveSessionState "t" 1152 4 (by decide) (by decide) rfl
    (by decide) rfl (by decide)

/-- C6, counterexample: the claim says a failed launch tears down any
partially created pipe (descriptors closed) before returning.  When
`os.pipe()` succeeds and `subprocess.Popen` raises, the two fresh
descriptors (10 and 11 here) are still open after `start_stream` returns
false, and no table entry tracks them — `stop_stream` cannot close a pipe
that was never recorded. -/
theorem claim_C6_counterexample :
    (start_stream ⟨true, false⟩ oneChannelState "t").2 = false ∧
    (start_stream ⟨true, false⟩ oneChannelState "t").1.os_open_fds = [10, 11] ∧
    dlookup (start_stream ⟨true, false⟩ oneChannelState "t").1.ffmpeg_pipes "t" =
      none := by
  decide

/-- C6, amended: if pipe or process creation fails, `start_stream` returns
false and leaves no entry for the tag in the process, pipe, or
active-session tables; but when `Popen` fails after `os.pipe()` succeeded,
the two pipe descriptors remain open (they leak — they are not closed
before returning). -/
theorem claim_C6 (e : StartEnv) (s : PState) (t : String)
    (hu : (dlookup s.channel_urls t).isSome)
    (ha : dlookup s.active_streams t = none)
    (hpr : dlookup s.ffmpeg_processes t = none)
    (hpi : dlookup s.ffmpeg_pipes t = none)
    (hfail : e.pipe_ok = false ∨ e.popen_ok = false) :
    start_stream e s t =
      (if e.pipe_ok then
        { s with os_open_fds := s.os_open_fds ++ [s.os_next_fd, s.os_next_fd + 1],
                 os_next_fd := s.os_next_fd + 2 }
       else s, false) ∧
    dlookup (start_stream e s t).1.ffmpeg_processes t = none ∧
    dlookup (start_stream e s t).1.ffmpeg_pipes t = none ∧
    dlookup (start_stream e s t).1.active_streams t = none := by
  cases hp : e.pipe_ok
  · have h1 := start_stream_pipe_fail e s t hu ha hp
    rw [stop_stream_noop s t hpr hpi ha] at h1
    rw [h1]
    simp [hpr, hpi, ha]
  · have ho : e.popen_ok = false := by
      rcases hfail with hf | hf
      · rw [hp] at hf
        exact absurd hf (by simp)
      · exact hf
    have h1 := start_stream_popen_fail e s t hu ha hp ho
    rw [stop_stream_noop _ t (by simpa using hpr) (by simpa using hpi)
      (by simpa using ha)] at h1
    rw [h1]
    simp [hpr, hpi, ha]

/-- Witness for C6 (amended) with `os.pipe()` itself failing. -/
theorem claim_C6_witness :
    start_stream ⟨false, true⟩ oneChannelState "t" = (oneChannelState, false) ∧
    dlookup (start_stream ⟨false, true⟩ oneChannelState "t").1.ffmpeg_processes
      "t" = none ∧
    dlookup (start_stream ⟨false, true⟩ oneChannelState "t").1.ffmpeg_pipes
      "t" = none ∧
    dlookup (start_stream ⟨false, true⟩ oneChannelState "t").1.active_streams
      "t" = none :=
  claim_C6 ⟨false, true⟩ oneChannelState "t" (by decide) (by decide)
    (by decide) (by decide) (Or.inl rfl)

/-! ### Route reconciliation facts -/

theorem dlookup_isSome_iff_mem_keys {α : Type} (d : Dict α) (u : String) :
    (dlookup d u).isSome ↔ u ∈ d.map Prod.fst := by
  induction d with
  | nil => simp [dlookup]
  | cons p t ih =>
    obtain ⟨a, b⟩ := p
    by_cases hau : a = u
    · subst hau
      simp [dlookup]
    · rw [show dlookup ((a, b) :: t) u = dlookup t u from by simp [dlookup, hau],
        List.map_cons, List.mem_cons]
      constructor
      · intro h
        exact Or.inr (ih.mp h)
      · rintro (h | h)
        · exact absurd h.symm hau
        · exact ih.mpr h

theorem runStarts_cons (env : String → StartEnv) (t0 : String)
    (ts : List String) (s : PState) :
    runStarts env (t0 :: ts) s =
      if (dlookup s.active_streams t0).isSome then runStarts env ts s
      else ((runStarts env ts (start_stream (env t0) s t0).1).1,
        Call.start t0 (start_stream (env t0) s t0).2 ::
          (runStarts env ts (start_stream (env t0) s t0).1).2) := by
  conv_lhs => unfold runStarts

theorem runStops_cons (tags : List String) (t0 : String) (ts : List String)
    (s : PState) :
    runStops tags (t0 :: ts) s =
      if t0 ∈ tags then runStops tags ts s
      else ((runStops tags ts (stop_stream s t0)).1,
        Call.stop t0 :: (runStops tags ts (stop_stream s t0)).2) := by
  conv_lhs => unfold runStops

theorem start_stream_active_mono (e : StartEnv) (s : PState) (t u : String)
    (h : (dlookup s.active_streams u).isSome) :
    (dlookup (start_stream e s t).1.active_streams u).isSome := by
  rcases eq_or_ne u t with rfl | hne
  · exact start_stream_active_mono_self e s u h
  · rw [start_stream_active_ne e s t u hne]
    exact h

theorem car_unfold (env : String → StartEnv) (routes : List Route)
    (s : PState) :
    check_active_routes env routes s =
      ((runStops (computeActiveTags s routes)
          ((runStarts env (computeActiveTags s routes) s).1.active_streams.map
            Prod.fst)
          (runStarts env (computeActiveTags s routes) s).1).1,
        (runStarts env (computeActiveTags s routes) s).2 ++
          (runStops (computeActiveTags s routes)
            ((runStarts env (computeActiveTags s routes) s).1.active_streams.map
              Prod.fst)
            (runStarts env (computeActiveTags s routes) s).1).2) := rfl

theorem runStarts_urls (env : String → StartEnv) (ts : List String)
    (s : PState) :
    (runStarts env ts s).1.channel_urls = s.channel_urls := by
  induction ts generalizing s with
  | nil => rfl
  | cons t0 ts ih =>
    unfold runStarts
    split
    · exact ih s
    · show (runStarts env ts (start_stream (env t0) s t0).1).1.channel_urls =
        s.channel_urls
      rw [ih, start_stream_urls]

theorem runStarts_names (env : String → StartEnv) (ts : List String)
    (s : PState) :
    (runStarts env ts s).1.channel_names = s.channel_names := by
  induction ts generalizing s with
  | nil => rfl
  | cons t0 ts ih =>
    unfold runStarts
    split
    · exact ih s
    · show (runStarts env ts (start_stream (env t0) s t0).1).1.channel_names =
        s.channel_names
      rw [ih, start_stream_names]

theorem runStops_urls (tags snap : List String) (s : PState) :
    (runStops tags snap s).1.channel_urls = s.channel_urls := by
  induction snap generalizing s with
  | nil => rfl
  | cons t0 ts ih =>
    unfold runStops
    split
    · exact ih s
    · show (runStops tags ts (stop_stream s t0)).1.channel_urls =
        s.channel_urls
      rw [ih, stop_stream_urls]

theorem runStops_names (tags snap : List String) (s : PState) :
    (runStops tags snap s).1.channel_names = s.channel_names := by
  induction snap generalizing s with
  | nil => rfl
  | cons t0 ts ih =>
    unfold runStops
    split
    · exact ih s
    · show (runStops tags ts (stop_stream s t0)).1.channel_names =
        s.channel_names
      rw [ih, stop_stream_names]

theorem runStarts_active_mono (env : String → StartEnv) (ts : List String)
    (s : PState) (u : String)
    (h : (dlookup s.active_streams u).isSome) :
    (dlookup (runStarts env ts s).1.active_streams u).isSome := by
  induction ts generalizing s with
  | nil => exact h
  | cons t0 ts ih =>
    unfold runStarts
    split
    · exact ih s h
    · exact ih _ (start_stream_active_mono (env t0) s t0 u h)

theorem runStarts_all_ok (env : String → StartEnv) (ts : List String)
    (s : PState)
    (hok : ∀ t ok, Call.start t ok ∈ (runStarts env ts s).2 → ok = true) :
    ∀ t ∈ ts, (dlookup (runStarts env ts s).1.active_streams t).isSome := by
  induction ts generalizing s with
  | nil =>
    intro t ht
    exact absurd ht (by simp)
  | cons t0 ts ih =>
    intro t ht
    by_cases hA : (dlookup s.active_streams t0).isSome
    · have hEq : runStarts env (t0 :: ts) s = runStarts env ts s := by
        rw [runStarts_cons, if_pos hA]
      rw [hEq] at hok ⊢
      rcases List.mem_cons.mp ht with rfl | hts
      · exact runStarts_active_mono env ts s t hA
      · exact ih s hok t hts
    · have hEq : runStarts env (t0 :: ts) s =
          ((runStarts env ts (start_stream (env t0) s t0).1).1,
            Call.start t0 (start_stream (env t0) s t0).2 ::
              (runStarts env ts (start_stream (env t0) s t0).1).2) := by
        rw [runStarts_cons, if_neg hA]
      rw [hEq] at hok ⊢
      have hok0 : (start_stream (env t0) s t0).2 = true :=
        hok t0 _ (by simp)
      rcases List.mem_cons.mp ht with rfl | hts
      · exact runStarts_active_mono env ts _ t
          (start_stream_success_active (env t) s t hok0)
      · exact ih _ (fun t1 ok1 hm => hok t1 ok1 (List.mem_cons_of_mem _ hm))
          t hts

theorem runStops_keeps (tags snap : List String) (s : PState) (u : String)
    (hu : u ∈ tags) (h : (dlookup s.active_streams u).isSome) :
    (dlookup (runStops tags snap s).1.active_streams u).isSome := by
  induction snap generalizing s with
  | nil => exact h
  | cons t0 ts ih =>
    unfold runStops
    split
    · exact ih s h
    · rename_i ht0
      refine ih _ ?_
      rw [stop_stream_active_ne s t0 u (fun he => ht0 (he ▸ hu))]
      exact h

theorem runStops_domain (tags snap : List String) (s : PState)
    (hinv : ∀ u, (dlookup s.active_streams u).isSome → u ∈ tags ∨ u ∈ snap) :
    ∀ u, (dlookup (runStops tags snap s).1.active_streams u).isSome →
      u ∈ tags := by
  induction snap generalizing s with
  | nil =>
    intro u hu
    rcases hinv u hu with h | h
    · exact h
    · exact absurd h (by simp)
  | cons t0 ts ih =>
    intro u hu
    by_cases ht0 : t0 ∈ tags
    · have hEq : runStops tags (t0 :: ts) s = runStops tags ts s := by
        rw [runStops_cons, if_pos ht0]
      rw [hEq] at hu
      refine ih s ?_ u hu
      intro w hw
      rcases hinv w hw with h | h
      · exact Or.inl h
      · rcases List.mem_cons.mp h with rfl | h
        · exact Or.inl ht0
        · exact Or.inr h
    · have hEq : runStops tags (t0 :: ts) s =
          ((runStops tags ts (stop_stream s t0)).1,
            Call.stop t0 :: (runStops tags ts (stop_stream s t0)).2) := by
        rw [runStops_cons, if_neg ht0]
      rw [hEq] at hu
      refine ih (stop_stream s t0) ?_ u hu
      intro w hw
      by_cases hwt : w = t0
      · subst hwt
        rw [stop_stream_active_none] at hw
        exact absurd hw (by simp)
      · rw [stop_stream_active_ne s t0 w hwt] at hw
        rcases hinv w hw with h | h
        · exact Or.inl h
        · rcases List.mem_cons.mp h with h | h
          · exact absurd h hwt
          · exact Or.inr h

theorem runStarts_noop (env : String → StartEnv) (ts : List String)
    (s : PState) (h : ∀ t ∈ ts, (dlookup s.active_streams t).isSome) :
    runStarts env ts s = (s, []) := by
  induction ts with
  | nil => rfl
  | cons t0 ts ih =>
    unfold runStarts
    rw [if_pos (h t0 (by simp))]
    exact ih (fun t ht => h t (by simp [ht]))

theorem runStops_noop (tags snap : List String) (s : PState)
    (h : ∀ t ∈ snap, t ∈ tags) :
    runStops tags snap s = (s, []) := by
  induction snap with
  | nil => rfl
  | cons t0 ts ih =>
    unfold runStops
    rw [if_pos (h t0 (by simp))]
    exact ih (fun t ht => h t (by simp [ht]))

theorem car_state_urls (env : String → StartEnv) (routes : List Route)
    (s : PState) :
    (check_active_routes env routes s).1.channel_urls = s.channel_urls := by
  rw [car_unfold env routes s]
  show (runStops _ _ _).1.channel_urls = s.channel_urls
  rw [runStops_urls, runStarts_urls]

theorem car_state_names (env : String → StartEnv) (routes : List Route)
    (s : PState) :
    (check_active_routes env routes s).1.channel_names = s.channel_names := by
  rw [car_unfold env routes s]
  show (runStops _ _ _).1.channel_names = s.channel_names
  rw [runStops_names, runStarts_names]

theorem computeActiveTags_congr (s1 s2 : PState) (routes : List Route)
    (hn : s1.channel_names = s2.channel_names)
    (hu : s1.channel_urls = s2.channel_urls) :
    computeActiveTags s1 routes = computeActiveTags s2 routes := by
  unfold computeActiveTags
  rw [hn, hu]

/-- C8: route reconciliation is idempotent: if every start issued by a run
of `check_active_routes` succeeded, running it again on the resulting state
with the same routes response issues no start or stop calls at all. -/
theorem claim_C8 (env1 env2 : String → StartEnv) (routes : List Route)
    (s : PState)
    (hok : ∀ t ok, Call.start t ok ∈ (check_active_routes env1 routes s).2 →
      ok = true) :
    (check_active_routes env2 routes (check_active_routes env1 routes s).1).2 =
      [] := by
  have hok1 : ∀ t ok,
      Call.start t ok ∈ (runStarts env1 (computeActiveTags s routes) s).2 →
      ok = true := by
    rw [car_unfold env1 routes s] at hok
    exact fun t ok hm => hok t ok (List.mem_append_left _ hm)
  have h1 : ∀ t ∈ computeActiveTags s routes,
      (dlookup (runStarts env1 (computeActiveTags s routes) s).1.active_streams
        t).isSome :=
    runStarts_all_ok env1 _ s hok1
  have h2 : ∀ t ∈ computeActiveTags s routes,
      (dlookup (check_active_routes env1 routes s).1.active_streams
        t).isSome := by
    rw [car_unfold env1 routes s]
    intro t ht
    exact runStops_keeps _ _ _ t ht (h1 t ht)
  have h3 : ∀ u,
      (dlookup (check_active_routes env1 routes s).1.active_streams u).isSome →
      u ∈ computeActiveTags s routes := by
    rw [car_unfold env1 routes s]
    refine runStops_domain _ _ _ ?_
    intro u hu
    exact Or.inr ((dlookup_isSome_iff_mem_keys _ u).mp hu)
  have hTags2 : computeActiveTags (check_active_routes env1 routes s).1 routes
      = computeActiveTags s routes :=
    computeActiveTags_congr _ _ routes
      (by rw [car_state_names]) (by rw [car_state_urls])
  rw [car_unfold env2 routes _, hTags2,
    runStarts_noop env2 _ _ h2]
  have h4 : ∀ t ∈ ((check_active_routes env1 routes s).1, ([] : List Call)
      ).1.active_streams.map Prod.fst, t ∈ computeActiveTags s routes :=
    fun t ht => h3 t ((dlookup_isSome_iff_mem_keys _ t).mpr ht)
  rw [runStops_noop _ _ _ h4]
  rfl

/-- Witness for C8 on the empty routes response over a fresh state: the
first run issues no start calls, so the hypothesis holds vacuously. -/
theorem claim_C8_witness :
    (check_active_routes (fun _ => ⟨true, true⟩) []
      (check_active_routes (fun _ => ⟨true, true⟩) [] blankState).1).2 = [] :=
  claim_C8 (fun _ => ⟨true, true⟩) (fun _ => ⟨true, true⟩) [] blankState
    (fun _ _ hm => absurd
      ((show (check_active_routes (fun _ => ⟨true, true⟩) [] blankState).2 =
          [] from rfl) ▸ hm)
      (List.not_mem_nil _))

/-! ### Session uniqueness preservation -/

theorem runStarts_nodup_active (env : String → StartEnv) (ts : List String)
    (s : PState) (h : keysNodup s.active_streams) :
    keysNodup (runStarts env ts s).1.active_streams := by
  induction ts generalizing s with
  | nil => exact h
  | cons t0 ts ih =>
    unfold runStarts
    split
    · exact ih s h
    · exact ih _ (start_stream_nodup_active (env t0) s t0 h)

theorem runStops_nodup_active (tags snap : List String) (s : PState)
    (h : keysNodup s.active_streams) :
    keysNodup (runStops tags snap s).1.active_streams := by
  induction snap generalizing s with
  | nil => exact h
  | cons t0 ts ih =>
    unfold runStops
    split
    · exact ih s h
    · exact ih _ (stop_stream_nodup_active s t0 h)

theorem gadStart_nodup (env : AudioEnv) (s : PState) (t : String)
    (h : keysNodup s.active_streams) :
    keysNodup (gadStart env s t).1.active_streams := by
  unfold gadStart
  split
  · exact start_stream_nodup_active env.start1 s t h
  · exact h

theorem gadRestart_nodup (env : AudioEnv) (s : PState) (t : String)
    (h : keysNodup s.active_streams) :
    keysNodup (gadRestart env s t).1.active_streams := by
  unfold gadRestart
  split
  · exact start_stream_nodup_active env.start2 _ t
      (stop_stream_nodup_active s t h)
  · exact h

theorem gadRead_nodup (env : AudioEnv) (s : PState) (t : String) (n : Nat)
    (h : keysNodup s.active_streams) :
    keysNodup (gadRead env s t n).1.active_streams := by
  unfold gadRead
  split
  · rcases hr : env.read with _ | k | _
    · simp only [hr]
      exact h
    · simp only [hr]
      split
      · exact h
      · exact stop_stream_nodup_active s t h
    · simp only [hr]
      exact stop_stream_nodup_active s t h
  · exact h

theorem get_audio_data_nodup (env : AudioEnv) (s : PState) (t : String)
    (n : Nat) (h : keysNodup s.active_streams) :
    keysNodup (get_audio_data env s t n).1.active_streams := by
  have h1 := gadStart_nodup env s t h
  have h2 := gadRestart_nodup env (gadStart env s t).1 t h1
  have h3 := gadRead_nodup env (gadRestart env (gadStart env s t).1 t).1 t n h2
  rcases hu : dlookup s.channel_urls t with _ | u
  · have hgad : get_audio_data env s t n = (s, none) := by
      unfold get_audio_data
      rw [hu]
      rfl
    rw [hgad]
    exact h
  · have hgad : get_audio_data env s t n =
        if (gadStart env s t).2 = false then ((gadStart env s t).1, none)
        else if (gadRestart env (gadStart env s t).1 t).2 = false then
          ((gadRestart env (gadStart env s t).1 t).1, none)
        else gadRead env (gadRestart env (gadStart env s t).1 t).1 t n := by
      unfold get_audio_data
      rw [hu]
      rfl
    rw [hgad]
    split
    · exact h1
    · split
      · exact h2
      · exact h3

theorem car_nodup_active (env : String → StartEnv) (routes : List Route)
    (s : PState) (h : keysNodup s.active_streams) :
    keysNodup (check_active_routes env routes s).1.active_streams := by
  rw [car_unfold env routes s]
  exact runStops_nodup_active _ _ _ (runStarts_nodup_active env _ s h)

/-- C7: every tag has at most one session (on states whose session table
has distinct keys — true of every Python dict — all four operations keep
the keys distinct), and `start_stream` on a tag that already has an active
session is a no-op returning true. -/
theorem claim_C7 :
    (∀ e s t, keysNodup s.active_streams →
      keysNodup (start_stream e s t).1.active_streams) ∧
    (∀ s t, keysNodup s.active_streams →
      keysNodup (stop_stream s t).active_streams) ∧
    (∀ env s t n, keysNodup s.active_streams →
      keysNodup (get_audio_data env s t n).1.active_streams) ∧
    (∀ env routes s, keysNodup s.active_streams →
      keysNodup (check_active_routes env routes s).1.active_streams) ∧
    (∀ e s t, (dlookup s.channel_urls t).isSome →
      (dlookup s.active_streams t).isSome → start_stream e s t = (s, true)) :=
  ⟨fun e s t h => start_stream_nodup_active e s t h,
   fun s t h => stop_stream_nodup_active s t h,
   fun env s t n h => get_audio_data_nodup env s t n h,
   fun env routes s h => car_nodup_active env routes s h,
   fun e s t hu ha => start_stream_of_active e s t hu ha⟩

/-- Witness for C7: on a live session, a second `start_stream` is a no-op
returning success, and the session-table keys stay distinct. -/
theorem claim_C7_witness :
    keysNodup (start_stream ⟨true, true⟩ liveSessionState
      "t").1.active_streams ∧
    start_stream ⟨true, true⟩ liveSessionState "t" = (liveSessionState, true) :=
  ⟨claim_C7.1 ⟨true, true⟩ liveSessionState "t" (by decide),
   claim_C7.2.2.2.2 ⟨true, true⟩ liveSessionState "t" (by decide) (by decide)⟩

/-! ### Tag derivation facts -/

theorem count_map_dot_to_underscore (l : List Char) :
    (l.map (fun c => if c = '.' then '_' else c)).count '_' =
      l.count '.' + l.count '_' := by
  induction l with
  | nil => rfl
  | cons c t ih =>
    by_cases hc : c = '.'
    · subst hc
      simp [List.count_cons, ih]
      omega
    · by_cases hu : c = '_'
      · subst hu
        simp [List.count_cons, ih]
        omega
      · simp [List.count_cons, hc, hu, ih]

theorem sep_split_unique (xs1 : List Char) :
    ∀ xs2 ys1 ys2 : List Char,
      xs1 ++ '_' :: ys1 = xs2 ++ '_' :: ys2 →
      xs1.count '_' = xs2.count '_' → xs1 = xs2 ∧ ys1 = ys2 := by
  induction xs1 with
  | nil =>
    intro xs2 ys1 ys2 h hc
    cases xs2 with
    | nil =>
      simp only [List.nil_append, List.cons.injEq] at h
      exact ⟨rfl, h.2⟩
    | cons d t2 =>
      simp only [List.nil_append, List.cons_append, List.cons.injEq] at h
      rw [← h.1] at hc
      simp [List.count_cons] at hc
  | cons c t1 ih =>
    intro xs2 ys1 ys2 h hc
    cases xs2 with
    | nil =>
      simp only [List.cons_append, List.nil_append, List.cons.injEq] at h
      rw [h.1] at hc
      simp [List.count_cons] at hc
    | cons d t2 =>
      simp only [List.cons_append, List.cons.injEq] at h
      obtain ⟨hcd, htl⟩ := h
      subst hcd
      have hc' : t1.count '_' = t2.count '_' := by
        by_cases hcu : c = '_'
        · subst hcu
          simp [List.count_cons] at hc
          omega
        · simpa [List.count_cons, hcu] using hc
      obtain ⟨h1, h2⟩ := ih t2 ys1 ys2 htl hc'
      exact ⟨by rw [h1], h2⟩

theorem map_dot_to_underscore_inj (l1 : List Char) :
    ∀ l2 : List Char, '_' ∉ l1 → '_' ∉ l2 →
      l1.map (fun c => if c = '.' then '_' else c) =
        l2.map (fun c => if c = '.' then '_' else c) → l1 = l2 := by
  induction l1 with
  | nil =>
    intro l2 _ _ h
    cases l2 with
    | nil => rfl
    | cons b t2 => exact absurd h (by simp)
  | cons a t1 ih =>
    intro l2 h1 h2 h
    cases l2 with
    | nil => exact absurd h (by simp)
    | cons b t2 =>
      simp only [List.map_cons, List.cons.injEq] at h
      obtain ⟨hab, htl⟩ := h
      have ha : a ≠ '_' := fun hc => h1 (by simp [hc])
      have hb : b ≠ '_' := fun hc => h2 (by simp [hc])
      have hab' : a = b := by
        by_cases hadot : a = '.'
        · by_cases hbdot : b = '.'
          · rw [hadot, hbdot]
          · rw [if_pos hadot, if_neg hbdot] at hab
            exact absurd hab.symm hb
        · by_cases hbdot : b = '.'
          · rw [if_neg hadot, if_pos hbdot] at hab
            exact absurd hab ha
          · rw [if_neg hadot, if_neg hbdot] at hab
            exact hab
      rw [hab',
        ih t2 (fun hc => h1 (by simp [hc])) (fun hc => h2 (by simp [hc])) htl]

theorem string_toList_inj (x y : String) (h : x.toList = y.toList) : x = y := by
  cases x
  cases y
  exact congrArg String.mk (by simpa [String.toList] using h)

/-- C3, counterexample: the claim asserts injectivity over all distinct
`(ip, guideNumber)` string pairs, but the separator `'_'` is ambiguous:
`("1.2", "3")` and `("1", "2.3")` are distinct pairs with the same tag
`"hdhomerun_1_2_3"`. -/
theorem claim_C3_counterexample :
    tagFor "1.2" "3" = tagFor "1" "2.3" ∧
    (("1.2", "3") : String × String) ≠ ("1", "2.3") := by
  decide

/-- C3, amended: tag derivation is deterministic — the example pair maps to
`"hdhomerun_192_168_1_100_95_5"` — and it is injective over distinct pairs
whose components contain no underscore and whose IP is dotted-quad shaped
(exactly three dots), which covers every real device IP and lineup guide
number; for arbitrary strings injectivity fails (see the counterexample). -/
theorem claim_C3 :
    tagFor "192.168.1.100" "95.5" = "hdhomerun_192_168_1_100_95_5" ∧
    (∀ ip1 g1 ip2 g2 : String,
      '_' ∉ ip1.toList → '_' ∉ g1.toList → '_' ∉ ip2.toList → '_' ∉ g2.toList →
      ip1.toList.count '.' = 3 → ip2.toList.count '.' = 3 →
      tagFor ip1 g1 = tagFor ip2 g2 → ip1 = ip2 ∧ g1 = g2) := by
  constructor
  · decide
  · intro ip1 g1 ip2 g2 hu1 hu2 hu3 hu4 hd1 hd2 h
    have hlist : "hdhomerun_".toList ++ (pyReplace ip1 '.' '_').toList
        ++ '_' :: (pyReplace g1 '.' '_').toList =
        "hdhomerun_".toList ++ (pyReplace ip2 '.' '_').toList
        ++ '_' :: (pyReplace g2 '.' '_').toList := by
      have := congrArg String.toList h
      simpa [tagFor, String.toList] using this
    rw [List.append_assoc, List.append_assoc] at hlist
    have hmid := List.append_cancel_left hlist
    have hcount : (pyReplace ip1 '.' '_').toList.count '_' =
        (pyReplace ip2 '.' '_').toList.count '_' := by
      have e1 : (pyReplace ip1 '.' '_').toList =
          ip1.toList.map (fun c => if c = '.' then '_' else c) := rfl
      have e2 : (pyReplace ip2 '.' '_').toList =
          ip2.toList.map (fun c => if c = '.' then '_' else c) := rfl
      rw [e1, e2, count_map_dot_to_underscore, count_map_dot_to_underscore,
        hd1, hd2, List.count_eq_zero.mpr hu1, List.count_eq_zero.mpr hu3]
    obtain ⟨hip, hg⟩ := sep_split_unique _ _ _ _ hmid hcount
    constructor
    · exact string_toList_inj ip1 ip2
        (map_dot_to_underscore_inj ip1.toList ip2.toList hu1 hu3 hip)
    · exact string_toList_inj g1 g2
        (map_dot_to_underscore_inj g1.toList g2.toList hu2 hu4 hg)

/-- Witness for C3 (amended) at a concrete well-formed pair. -/
theorem claim_C3_witness :
    ("10.0.0.5" : String) = "10.0.0.5" ∧ ("99.9" : String) = "99.9" :=
  claim_C3.2 "10.0.0.5" "99.9" "10.0.0.5" "99.9" (by decide) (by decide)
    (by decide) (by decide) (by decide) (by decide) rfl

/-! ### Lineup fetcher facts -/

theorem processStation_registered (ip nm : String) (s : PState) (st : Station)
    (tag : String) (h : tag ∈ s.registered_sources) :
    tag ∈ (processStation ip nm s st).registered_sources ∧
    dlookup (processStation ip nm s st).channel_urls tag =
      dlookup s.channel_urls tag ∧
    dlookup (processStation ip nm s st).channel_names tag =
      dlookup s.channel_names tag := by
  unfold processStation
  split
  · exact ⟨h, rfl, rfl⟩
  · split
    · exact ⟨h, rfl, rfl⟩
    · split
      · exact ⟨h, rfl, rfl⟩
      · rename_i hreg
        have hne : tagFor ip st.guideNumber ≠ tag := fun he => hreg (he ▸ h)
        refine ⟨by simp [h], ?_, ?_⟩
        · simp only [dlookup_dset, if_neg hne]
        · simp only [dlookup_dset, if_neg hne]

theorem foldl_process_registered (ip nm : String) (lineup : List Station)
    (s : PState) (tag : String) (h : tag ∈ s.registered_sources) :
    tag ∈ (lineup.foldl (processStation ip nm) s).registered_sources ∧
    dlookup (lineup.foldl (processStation ip nm) s).channel_urls tag =
      dlookup s.channel_urls tag ∧
    dlookup (lineup.foldl (processStation ip nm) s).channel_names tag =
      dlookup s.channel_names tag := by
  induction lineup generalizing s with
  | nil => exact ⟨h, rfl, rfl⟩
  | cons st rest ih =>
    obtain ⟨hr, hu, hn⟩ := processStation_registered ip nm s st tag h
    obtain ⟨hr2, hu2, hn2⟩ := ih (processStation ip nm s st) hr
    exact ⟨hr2, by rw [List.foldl_cons, hu2, hu],
      by rw [List.foldl_cons, hn2, hn]⟩

/-- C5, counterexample: the claim says each radio channel's stored stream
URL is recomputed on every lineup fetch, so that after a fetch the stored
value equals the one in the latest lineup response.  The per-station loop
skips any tag already in `registered_sources`, so a second fetch that
reports a new URL for the same channel leaves the old URL stored:
`"http://old"` remains although the latest lineup says `"http://new"`. -/
theorem claim_C5_counterexample :
    dlookup (fetch_stations_from_device "192.168.1.50" "HDHR" lineupNew
        (fetch_stations_from_device "192.168.1.50" "HDHR" lineupOld
          blankState)).channel_urls (tagFor "192.168.1.50" "95.5") =
      some "http://old" ∧
    dlookup (fetch_stations_from_device "192.168.1.50" "HDHR" lineupNew
        blankState).channel_urls (tagFor "192.168.1.50" "95.5") =
      some "http://new" ∧
    ("http://old" : String) ≠ "http://new" := by
  refine ⟨?_, by decide, by decide⟩
  decide

/-- C5, amended: a lineup fetch stores a radio channel's stream URL and
display name only when the channel's tag is not yet registered; for a tag
already in `registered_sources` the fetch changes neither stored value, so
they keep what the first registration stored rather than tracking the
latest lineup response. -/
theorem claim_C5 (ip nm : String) (lineup : List Station) (s : PState)
    (tag : String) (h : tag ∈ s.registered_sources) :
    dlookup (fetch_stations_from_device ip nm lineup s).channel_urls tag =
      dlookup s.channel_urls tag ∧
    dlookup (fetch_stations_from_device ip nm lineup s).channel_names tag =
      dlookup s.channel_names tag := by
  unfold fetch_stations_from_device
  split
  · exact ⟨rfl, rfl⟩
  · obtain ⟨_, hu, hn⟩ := foldl_process_registered ip nm lineup s tag h
    exact ⟨hu, hn⟩

/-- Witness for C5 (amended): a fetch leaves the already-registered tag
`"t"` of `oneChannelState` untouched. -/
theorem claim_C5_witness :
    dlookup (fetch_stations_from_device "192.168.1.50" "HDHR" lineupNew
        oneChannelState).channel_urls "t" =
      dlookup oneChannelState.channel_urls "t" ∧
    dlookup (fetch_stations_from_device "192.168.1.50" "HDHR" lineupNew
        oneChannelState).channel_names "t" =
      dlookup oneChannelState.channel_names "t" :=
  claim_C5 "192.168.1.50" "HDHR" lineupNew oneChannelState "t" (by decide)
